import Mathlib

/-!
Verification of the data pipeline in `src/data/get_nfl_data.py`
(ff-player-projections).  The Python functions are shallowly embedded:
strings become `List Char`, Python `float`/numeric columns become `ℚ`,
fallible code returns `Option`, and pandas frames become lists of rows.
-/

/-! ## Scoring engine: `half_ppr_scoring` (source lines 27-82) -/

/-- Embedding of `half_ppr_scoring`.  The constants are the ones named in
the source; the result is the same left-to-right sum of weighted stats. -/
def half_ppr_scoring (rushing_tds receiving_tds rushing_yards receiving_yards
    receptions passing_tds interceptions fumbles passing_yards
    two_pt_conversions : ℚ) : ℚ :=
  let RUSHING_TD : ℚ := 6
  let RECEIVING_TD : ℚ := 6
  let RUSHING_YARDS : ℚ := 0.1
  let RECEIVING_YARDS : ℚ := 0.1
  let RECEPTIONS : ℚ := 0.5
  let PASSING_TD : ℚ := 4
  let INTERCEPTION : ℚ := -1
  let FUMBLE : ℚ := -2
  let PASSING_YARDS : ℚ := 1/25
  let TWO_PT_CONVERSION : ℚ := 2
  rushing_tds * RUSHING_TD +
    receiving_tds * RECEIVING_TD +
    rushing_yards * RUSHING_YARDS +
    receiving_yards * RECEIVING_YARDS +
    receptions * RECEPTIONS +
    passing_tds * PASSING_TD +
    interceptions * INTERCEPTION +
    fumbles * FUMBLE +
    passing_yards * PASSING_YARDS +
    two_pt_conversions * TWO_PT_CONVERSION

/-! ## Height conversion: `convert_height_to_inches` (source lines 8-25) -/

/-- Python `str.split` on the single-character separator `-`: every
occurrence of the separator splits, adjacent separators yield empty parts,
and the empty string yields the single part `[]`. -/
def pySplitDash : List Char → List (List Char)
  | [] => [[]]
  | c :: cs =>
    if c = '-' then [] :: pySplitDash cs
    else
      match pySplitDash cs with
      | [] => [[c]]
      | p :: ps => (c :: p) :: ps

/-- Nonempty and all decimal digits. -/
def isDigits (s : List Char) : Bool :=
  !s.isEmpty && s.all Char.isDigit

/-- Value of a digit list read in base ten. -/
def digitsToNat (s : List Char) : Nat :=
  s.foldl (fun n c => 10 * n + (c.toNat - 48)) 0

/-- Model of the Python builtin `int` applied to a string: an optional
sign followed by a nonempty run of decimal digits parses; anything else
raises (returns `none`). -/
def pyInt (s : List Char) : Option Int :=
  match s with
  | '-' :: rest => if isDigits rest then some (-(digitsToNat rest : Int)) else none
  | '+' :: rest => if isDigits rest then some (digitsToNat rest : Int) else none
  | _ => if isDigits s then some (digitsToNat s : Int) else none

/-- Embedding of `convert_height_to_inches`: split on the dash, index
parts 0 and 1 (an out-of-range index raises, `none`), convert both with
`int` (a parse failure raises, `none`), return `feet * 12 + inches`. -/
def convert_height_to_inches (height_string : List Char) : Option Int :=
  let height_string_split := pySplitDash height_string
  match height_string_split.get? 0, height_string_split.get? 1 with
  | some feetS, some inchesS =>
    match pyInt feetS, pyInt inchesS with
    | some feet, some inches => some (feet * 12 + inches)
    | _, _ => none
  | _, _ => none

theorem pySplitDash_ne_nil (s : List Char) : pySplitDash s ≠ [] := by
  induction s with
  | nil => simp [pySplitDash]
  | cons c cs ih =>
    by_cases h : c = '-'
    · simp [pySplitDash, h]
    · simp only [pySplitDash, if_neg h]
      cases pySplitDash cs with
      | nil => simp
      | cons p ps => simp

theorem pySplitDash_no_dash (s : List Char) (h : '-' ∉ s) :
    pySplitDash s = [s] := by
  induction s with
  | nil => rfl
  | cons c cs ih =>
    have hc : c ≠ '-' := by
      intro hc; exact h (hc ▸ List.mem_cons_self c cs)
    have hcs : '-' ∉ cs := fun hm => h (List.mem_cons_of_mem c hm)
    simp only [pySplitDash, if_neg hc, ih hcs]

theorem pySplitDash_append (f rest : List Char) (h : '-' ∉ f) :
    pySplitDash (f ++ '-' :: rest) = f :: pySplitDash rest := by
  induction f with
  | nil => simp [pySplitDash]
  | cons c cs ih =>
    have hc : c ≠ '-' := by
      intro hc; exact h (hc ▸ List.mem_cons_self c cs)
    have hcs : '-' ∉ cs := fun hm => h (List.mem_cons_of_mem c hm)
    simp only [List.cons_append, pySplitDash, if_neg hc, List.append_eq]
    rw [ih hcs]

/-- C1: `half_ppr_scoring` is exactly the fixed linear combination
rushingTDs*6 + receivingTDs*6 + rushingYards*0.1 + receivingYards*0.1 +
receptions*0.5 + passingTDs*4 + interceptions*(-1) + fumblesLost*(-2) +
passingYards*(1/25) + twoPtConversions*2, and in particular evaluates to
7, -1 and 7 on the three example stat lines of the specification. -/
theorem half_ppr_scoring_spec :
    (∀ rushing_tds receiving_tds rushing_yards receiving_yards receptions
        passing_tds interceptions fumbles passing_yards
        two_pt_conversions : ℚ,
      half_ppr_scoring rushing_tds receiving_tds rushing_yards
          receiving_yards receptions passing_tds interceptions fumbles
          passing_yards two_pt_conversions =
        rushing_tds * 6 + receiving_tds * 6 + rushing_yards * 0.1 +
          receiving_yards * 0.1 + receptions * 0.5 + passing_tds * 4 +
          interceptions * (-1) + fumbles * (-2) + passing_yards * (1/25) +
          two_pt_conversions * 2) ∧
    half_ppr_scoring 1 0 10 0 0 0 0 0 0 0 = 7 ∧
    half_ppr_scoring 0 0 0 0 4 0 1 1 0 0 = -1 ∧
    half_ppr_scoring 0 0 0 0 0 1 0 0 25 1 = 7 := by
  refine ⟨fun a b c d e f g h i j => ?_, ?_, ?_, ?_⟩ <;>
    norm_num [half_ppr_scoring]

/-- C7: on a well-formed height string, the feet part followed by a dash
and the inches part, with both parts parsable as integers and holding no
dash themselves, the conversion returns `feet * 12 + inches`. -/
theorem convert_height_to_inches_wellformed (f i : List Char)
    (feet inches : Int) (hf : '-' ∉ f) (hi : '-' ∉ i)
    (hpf : pyInt f = some feet) (hpi : pyInt i = some inches) :
    convert_height_to_inches (f ++ '-' :: i) = some (feet * 12 + inches) := by
  unfold convert_height_to_inches
  rw [pySplitDash_append f i hf, pySplitDash_no_dash i hi]
  simp [hpf, hpi]

/-- Witness for C7 at the concrete inputs of the specification:
"6-2" converts to 74 and "5-11" converts to 71. -/
theorem convert_height_to_inches_wellformed_witness :
    convert_height_to_inches ['6', '-', '2'] = some 74 ∧
    convert_height_to_inches ['5', '-', '1', '1'] = some 71 := by
  constructor
  · have h := convert_height_to_inches_wellformed ['6'] ['2'] 6 2
      (by decide) (by decide) (by decide) (by decide)
    simpa using h
  · have h := convert_height_to_inches_wellformed ['5'] ['1', '1'] 5 11
      (by decide) (by decide) (by decide) (by decide)
    simpa using h

/-- Counterexample for C6: the string "6-2-3" splits into three parts,
not two, yet the conversion succeeds and returns 74 instead of failing. -/
theorem convert_height_to_inches_three_parts_counterexample :
    (pySplitDash ['6', '-', '2', '-', '3']).length = 3 ∧
    convert_height_to_inches ['6', '-', '2', '-', '3'] = some 74 := by
  decide

theorem convert_height_to_inches_eq (s : List Char) :
    convert_height_to_inches s =
      match (pySplitDash s).get? 0, (pySplitDash s).get? 1 with
      | some feetS, some inchesS =>
        match pyInt feetS, pyInt inchesS with
        | some feet, some inches => some (feet * 12 + inches)
        | _, _ => none
      | _, _ => none := rfl

/-- C6 as amended: the conversion fails exactly when the string splits
into fewer than two parts, or when the first or the second part is not
integer-parsable; parts beyond the second are ignored.  In particular
"72" (no delimiter) fails. -/
theorem convert_height_to_inches_failure_iff :
    (∀ s : List Char,
      convert_height_to_inches s = none ↔
        ((pySplitDash s).length < 2 ∨
          ∃ f i, (pySplitDash s).get? 0 = some f ∧
            (pySplitDash s).get? 1 = some i ∧
            (pyInt f = none ∨ pyInt i = none))) ∧
    convert_height_to_inches ['7', '2'] = none := by
  refine ⟨fun s => ?_, by decide⟩
  rw [convert_height_to_inches_eq s]
  cases hp : pySplitDash s with
  | nil => exact absurd hp (pySplitDash_ne_nil s)
  | cons a t =>
    cases t with
    | nil => simp
    | cons b t2 =>
      cases hpa : pyInt a with
      | none => simp [hpa]
      | some x =>
        cases hpb : pyInt b with
        | none => simp [hpa, hpb]
        | some y => simp [hpa, hpb]

/-! ## Final-table rows, scoring column, and deduplication
(source lines 366-383) -/

/-- A row of the processed table just before line 366, restricted to the
stat columns consumed by the scoring step; `rest` stands for the values
of all remaining columns of the row. -/
structure FRow where
  rushing_tds : ℚ
  receiving_tds : ℚ
  rushing_yards : ℚ
  receiving_yards : ℚ
  receptions : ℚ
  passing_tds : ℚ
  interceptions : ℚ
  sack_fumbles_lost : ℚ
  rushing_fumbles_lost : ℚ
  receiving_fumbles_lost : ℚ
  passing_yards : ℚ
  passing_2pt_conversions : ℚ
  rushing_2pt_conversions : ℚ
  receiving_2pt_conversions : ℚ
  rest : List (List Char)
deriving DecidableEq

/-- Embedding of source lines 369-383: append the `fantasy_half_ppr`
column, computed per row by `half_ppr_scoring` with the fumbles argument
the sum of the three fumbles-lost columns and the two-point argument the
sum of the three two-point-conversion columns. -/
def addFantasyHalfPpr (data : List FRow) : List (FRow × ℚ) :=
  data.map fun x =>
    (x, half_ppr_scoring x.rushing_tds x.receiving_tds x.rushing_yards
      x.receiving_yards x.receptions x.passing_tds x.interceptions
      (x.sack_fumbles_lost + x.rushing_fumbles_lost +
        x.receiving_fumbles_lost)
      x.passing_yards
      (x.passing_2pt_conversions + x.rushing_2pt_conversions +
        x.receiving_2pt_conversions))

/-- Embedding of `DataFrame.drop_duplicates` (source line 366): keep the
first occurrence of each row, remove later exact duplicates. -/
def drop_duplicates_go {α : Type} [DecidableEq α] (seen : List α) :
    List α → List α
  | [] => []
  | r :: rs =>
    if r ∈ seen then drop_duplicates_go seen rs
    else r :: drop_duplicates_go (r :: seen) rs

/-- `drop_duplicates` with an initially empty seen set. -/
def drop_duplicates {α : Type} [DecidableEq α] (rows : List α) : List α :=
  drop_duplicates_go [] rows

theorem drop_duplicates_go_spec {α : Type} [DecidableEq α] (l : List α) :
    ∀ seen : List α,
      (∀ x ∈ drop_duplicates_go seen l, x ∉ seen) ∧
        (drop_duplicates_go seen l).Nodup := by
  induction l with
  | nil => intro seen; simp [drop_duplicates_go]
  | cons r rs ih =>
    intro seen
    by_cases hr : r ∈ seen
    · simpa [drop_duplicates_go, hr] using ih seen
    · have h1 := ih (r :: seen)
      simp only [drop_duplicates_go, if_neg hr]
      refine ⟨?_, ?_⟩
      · intro x hx
        rcases List.mem_cons.mp hx with rfl | hx2
        · exact hr
        · intro hxs
          exact h1.1 x hx2 (List.mem_cons_of_mem r hxs)
      · refine List.nodup_cons.mpr ⟨?_, h1.2⟩
        intro hrmem
        exact h1.1 r hrmem (List.mem_cons_self r seen)

theorem drop_duplicates_nodup {α : Type} [DecidableEq α]
    (rows : List α) : (drop_duplicates rows).Nodup :=
  (drop_duplicates_go_spec rows []).2

/-- C2: every row of the table produced by the scoring step carries, in
its `fantasy_half_ppr` column, exactly `half_ppr_scoring` applied to that
row's stat columns, the fumbles argument being the sum of the sack,
rushing and receiving fumbles-lost columns and the two-point argument the
sum of the passing, rushing and receiving two-point-conversion columns. -/
theorem fantasy_half_ppr_column_spec (data : List FRow) (p : FRow × ℚ)
    (hp : p ∈ addFantasyHalfPpr data) :
    p.2 = half_ppr_scoring p.1.rushing_tds p.1.receiving_tds
      p.1.rushing_yards p.1.receiving_yards p.1.receptions
      p.1.passing_tds p.1.interceptions
      (p.1.sack_fumbles_lost + p.1.rushing_fumbles_lost +
        p.1.receiving_fumbles_lost)
      p.1.passing_yards
      (p.1.passing_2pt_conversions + p.1.rushing_2pt_conversions +
        p.1.receiving_2pt_conversions) := by
  rcases List.mem_map.mp hp with ⟨x, _, rfl⟩
  rfl

/-- A concrete stat row: one rushing touchdown and ten rushing yards. -/
def fRowExample : FRow :=
  { rushing_tds := 1, receiving_tds := 0, rushing_yards := 10,
    receiving_yards := 0, receptions := 0, passing_tds := 0,
    interceptions := 0, sack_fumbles_lost := 0, rushing_fumbles_lost := 0,
    receiving_fumbles_lost := 0, passing_yards := 0,
    passing_2pt_conversions := 0, rushing_2pt_conversions := 0,
    receiving_2pt_conversions := 0, rest := [] }

/-- Witness for C2 on a one-row table: the appended score is 7, and it is
`half_ppr_scoring` of the row's columns. -/
theorem fantasy_half_ppr_column_spec_witness :
    (fRowExample, (7 : ℚ)) ∈ addFantasyHalfPpr [fRowExample] ∧
      (fRowExample, (7 : ℚ)).2 = half_ppr_scoring
        fRowExample.rushing_tds fRowExample.receiving_tds
        fRowExample.rushing_yards fRowExample.receiving_yards
        fRowExample.receptions fRowExample.passing_tds
        fRowExample.interceptions
        (fRowExample.sack_fumbles_lost + fRowExample.rushing_fumbles_lost +
          fRowExample.receiving_fumbles_lost)
        fRowExample.passing_yards
        (fRowExample.passing_2pt_conversions +
          fRowExample.rushing_2pt_conversions +
          fRowExample.receiving_2pt_conversions) := by
  have hm : (fRowExample, (7 : ℚ)) ∈ addFantasyHalfPpr [fRowExample] := by
    have h7 : half_ppr_scoring 1 0 10 0 0 0 0 0 0 0 = (7 : ℚ) := by
      norm_num [half_ppr_scoring]
    simp [addFantasyHalfPpr, fRowExample, h7]
  exact ⟨hm, fantasy_half_ppr_column_spec [fRowExample] _ hm⟩

/-- C9: after the explicit deduplication of line 366, appending the
`fantasy_half_ppr` column still yields a table with no two rows equal in
every column: the score is a function of the other columns, so the final
table is duplicate-free by full row equality. -/
theorem final_table_duplicate_free (rows : List FRow) :
    (addFantasyHalfPpr (drop_duplicates rows)).Nodup := by
  unfold addFantasyHalfPpr
  refine List.Nodup.map ?_ (drop_duplicates_nodup rows)
  intro a b hab
  exact congrArg Prod.fst hab

/-! ## Aggregation of weekly data (source line 138) -/

/-- A raw WeeklyPerformance row: the grouping key columns plus the
numeric stat columns, the latter indexed by an arbitrary column type
`κ`. -/
structure WRow (κ : Type) where
  player_id : List Char
  season : Int
  week : Int
  stats : κ → ℚ

/-- The grouping key `(player_id, season, week)`. -/
def wkey {κ : Type} (r : WRow κ) : List Char × Int × Int :=
  (r.player_id, r.season, r.week)

/-- Embedding of
`weekly_data.groupby(["player_id", "season", "week"]).sum().reset_index()`
(source line 138): one row per distinct key, each numeric column summed
over the raw rows with that key. -/
def groupBySum {κ : Type} (rows : List (WRow κ)) : List (WRow κ) :=
  ((rows.map wkey).dedup).map fun k =>
    { player_id := k.1, season := k.2.1, week := k.2.2,
      stats := fun c =>
        ((rows.filter fun r => decide (wkey r = k)).map
          fun r => r.stats c).sum }

theorem groupBySum_map_wkey {κ : Type} (rows : List (WRow κ)) :
    (groupBySum rows).map wkey = (rows.map wkey).dedup := by
  unfold groupBySum
  rw [List.map_map]
  have hid : (wkey ∘ fun k : List Char × Int × Int =>
      ({ player_id := k.1, season := k.2.1, week := k.2.2,
         stats := fun c =>
           ((rows.filter fun r => decide (wkey r = k)).map
             fun r => r.stats c).sum } : WRow κ)) = id := by
    funext k
    rcases k with ⟨a, b, c⟩
    rfl
  rw [hid, List.map_id]

/-- C5: aggregation by `(player_id, season, week)` yields keys without
duplicates, exactly the keys of the input, and for each input key a row
whose every numeric column is the sum of that column over the raw rows
with that key. -/
theorem groupBySum_spec {κ : Type} (rows : List (WRow κ)) :
    ((groupBySum rows).map wkey).Nodup ∧
    (∀ k, k ∈ (groupBySum rows).map wkey ↔ k ∈ rows.map wkey) ∧
    (∀ k, k ∈ rows.map wkey →
      ∃ g, g ∈ groupBySum rows ∧ wkey g = k ∧
        ∀ c, g.stats c =
          ((rows.filter fun r => decide (wkey r = k)).map
            fun r => r.stats c).sum) := by
  refine ⟨?_, ?_, ?_⟩
  · rw [groupBySum_map_wkey]
    exact List.nodup_dedup _
  · intro k
    rw [groupBySum_map_wkey]
    exact List.mem_dedup
  · intro k hk
    have hk2 : k ∈ (rows.map wkey).dedup := List.mem_dedup.mpr hk
    refine ⟨_, List.mem_map_of_mem _ hk2, ?_, ?_⟩
    · rcases k with ⟨a, b, c⟩
      rfl
    · intro c
      rfl

/-- Two raw weekly rows sharing one key, with a single stat column. -/
def wRowA : WRow Unit := ⟨['p'], 2020, 1, fun _ => 2⟩

/-- Second segment row for the same key. -/
def wRowB : WRow Unit := ⟨['p'], 2020, 1, fun _ => 3⟩

/-- Witness for C5: on a two-segment input with a shared key, the
aggregate has a row for that key whose stat column is the sum over both
segments. -/
theorem groupBySum_spec_witness :
    (['p'], (2020 : Int), (1 : Int)) ∈ [wRowA, wRowB].map wkey ∧
    ∃ g, g ∈ groupBySum [wRowA, wRowB] ∧
      wkey g = (['p'], (2020 : Int), (1 : Int)) ∧
      ∀ c, g.stats c =
        (([wRowA, wRowB].filter fun r =>
          decide (wkey r = (['p'], (2020 : Int), (1 : Int)))).map
            fun r => r.stats c).sum := by
  have hm : (['p'], (2020 : Int), (1 : Int)) ∈ [wRowA, wRowB].map wkey := by
    simp [wkey, wRowA]
  exact ⟨hm, (groupBySum_spec [wRowA, wRowB]).2.2 _ hm⟩

/-! ## One-hot position encoding merged by index (source lines 297-303) -/

/-- A row at the one-hot stage: its `position` column and the values of
all its other columns. -/
structure PosRow where
  position : List Char
  rest : List (List Char)
deriving DecidableEq

/-- The indicator columns produced by `pd.get_dummies(data["position"])`:
one column per distinct observed position value. -/
def dummyCols (rows : List PosRow) : List (List Char) :=
  (rows.map PosRow.position).dedup

/-- The indicator rows of `pd.get_dummies(data["position"])`, index
aligned with `rows`: row `r` maps a position value to 1 exactly when it
is the position of `r`. -/
def getDummies (rows : List PosRow) : List (List Char → ℚ) :=
  rows.map fun r => fun c => if r.position = c then 1 else 0

/-- Embedding of the index-aligned inner merge of `data` with its one-hot
position frame (source lines 297-303): both frames carry the same index,
so the merge pairs the rows positionally. -/
def onehotMerge (rows : List PosRow) : List (PosRow × (List Char → ℚ)) :=
  rows.zip (getDummies rows)

theorem zip_self_map {α β : Type} (f : α → β) :
    ∀ l : List α, l.zip (l.map f) = l.map fun a => (a, f a)
  | [] => rfl
  | a :: l => by
    rw [List.map_cons, List.zip_cons_cons, zip_self_map f l, List.map_cons]

theorem onehotMerge_eq_map (rows : List PosRow) :
    onehotMerge rows =
      rows.map fun r => (r, fun c => if r.position = c then (1 : ℚ) else 0) := by
  unfold onehotMerge getDummies
  exact zip_self_map _ rows

/-- C10: the index-aligned one-hot merge keeps exactly the original rows
in order (none dropped, none duplicated), and in every merged row the
indicator column named by the row's position value is 1 while every other
indicator column is 0. -/
theorem onehotMerge_spec (rows : List PosRow) :
    (onehotMerge rows).map Prod.fst = rows ∧
    ∀ p ∈ onehotMerge rows,
      p.1.position ∈ dummyCols rows ∧
      p.2 p.1.position = 1 ∧
      ∀ c ∈ dummyCols rows, c ≠ p.1.position → p.2 c = 0 := by
  constructor
  · rw [onehotMerge_eq_map, List.map_map]
    have hcomp : (Prod.fst ∘ fun r : PosRow =>
        (r, fun c => if r.position = c then (1 : ℚ) else 0)) = id := rfl
    rw [hcomp, List.map_id]
  · intro p hp
    rw [onehotMerge_eq_map] at hp
    rcases List.mem_map.mp hp with ⟨r, hr, rfl⟩
    refine ⟨?_, ?_, ?_⟩
    · exact List.mem_dedup.mpr (List.mem_map_of_mem PosRow.position hr)
    · simp
    · intro c _ hc
      simp only []
      exact if_neg fun h => hc h.symm

/-- A running-back row for the one-hot witness. -/
def posRowRB : PosRow := ⟨['R', 'B'], []⟩

/-- A quarterback row for the one-hot witness. -/
def posRowQB : PosRow := ⟨['Q', 'B'], []⟩

/-- The merged pair produced for `posRowRB`. -/
def oneHotPairRB : PosRow × (List Char → ℚ) :=
  (posRowRB, fun c => if posRowRB.position = c then 1 else 0)

/-- Witness for C10 on a two-row table: the RB row's merged indicator
function is 1 on its own position column and 0 on the other. -/
theorem onehotMerge_spec_witness :
    oneHotPairRB ∈ onehotMerge [posRowRB, posRowQB] ∧
    (oneHotPairRB.1.position ∈ dummyCols [posRowRB, posRowQB] ∧
      oneHotPairRB.2 oneHotPairRB.1.position = 1 ∧
      ∀ c ∈ dummyCols [posRowRB, posRowQB],
        c ≠ oneHotPairRB.1.position → oneHotPairRB.2 c = 0) := by
  have hm : oneHotPairRB ∈ onehotMerge [posRowRB, posRowQB] := by
    rw [onehotMerge_eq_map]
    simp only [List.map_cons, List.map_nil]
    exact List.mem_cons_self _ _
  exact ⟨hm, (onehotMerge_spec [posRowRB, posRowQB]).2 _ hm⟩

/-! ## Reconciler filters (source lines 172-202) -/

/-- The string WR. -/
def strWR : List Char := ['W', 'R']

/-- The string RB. -/
def strRB : List Char := ['R', 'B']

/-- The string TE. -/
def strTE : List Char := ['T', 'E']

/-- The string QB. -/
def strQB : List Char := ['Q', 'B']

/-- The allowed skill positions of source line 173. -/
def allowedPositions : List (List Char) := [strWR, strRB, strTE, strQB]

/-- The string Active. -/
def strActive : List Char := ['A', 'c', 't', 'i', 'v', 'e']

/-- The string REG. -/
def strREG : List Char := ['R', 'E', 'G']

/-- A row of the weekly-roster merge, restricted to the columns read by
the filters of lines 172-202. -/
structure DRow where
  position : List Char
  rookie_year : Option Int
  fantasy_points : ℚ
  fantasy_points_ppr : ℚ
  status : List Char
  pfr_id : List Char
  season : Int
  week : Int
deriving DecidableEq

/-- A snap-count row, restricted to the columns read by lines 193-202. -/
structure SnapRow where
  pfr_player_id : List Char
  season : Int
  week : Int
  position : List Char
  game_type : List Char
deriving DecidableEq

/-- A row of the data-snap inner join: the left row's columns survive the
collision policy, and the snap side contributes `game_type`. -/
structure JRow where
  d : DRow
  game_type : List Char
deriving DecidableEq

/-- Source line 172-174: keep the four skill positions. -/
def filterPositions (rows : List DRow) : List DRow :=
  rows.filter fun r => decide (r.position ∈ allowedPositions)

/-- Source line 175: drop rows with an unknown rookie year. -/
def filterRookieKnown (rows : List DRow) : List DRow :=
  rows.filter fun r => decide (r.rookie_year ≠ none)

/-- Source lines 183-184: the two `loc` assignments that set `status` to
Active for rows with positive standard or PPR fantasy points. -/
def markActive (r : DRow) : DRow :=
  let r1 := if r.fantasy_points > 0 then { r with status := strActive } else r
  if r1.fantasy_points_ppr > 0 then { r1 with status := strActive } else r1

/-- Source lines 186-190: drop the rows with non-positive standard
fantasy points whose `status` is not Active. -/
def activityFilter (rows : List DRow) : List DRow :=
  (rows.map markActive).filter fun r =>
    !(decide (r.fantasy_points ≤ 0 ∧ r.status ≠ strActive))

/-- Source line 193: keep only snap rows whose position occurs in the
filtered data. -/
def restrictSnaps (snaps : List SnapRow) (rows : List DRow) : List SnapRow :=
  snaps.filter fun s => decide (s.position ∈ rows.map DRow.position)

/-- Source lines 194-201: inner join of the data with the snap counts on
`(pfr_id, season, week)`; colliding right-hand columns are dropped, so a
joined row is the left row plus the snap `game_type`. -/
def snapJoin (rows : List DRow) (snaps : List SnapRow) : List JRow :=
  rows.flatMap fun l =>
    (snaps.filter fun s =>
      decide (s.pfr_player_id = l.pfr_id ∧ s.season = l.season ∧
        s.week = l.week)).map
      fun s => { d := l, game_type := s.game_type }

/-- Source line 202: keep regular-season games only. -/
def regSeasonFilter (rows : List JRow) : List JRow :=
  rows.filter fun r => decide (r.game_type = strREG)

/-- The filter stages of the reconciler, lines 172-202 in source order. -/
def reconcilerFilters (rows : List DRow) (snaps : List SnapRow) : List JRow :=
  regSeasonFilter
    (snapJoin (activityFilter (filterRookieKnown (filterPositions rows)))
      (restrictSnaps snaps
        (activityFilter (filterRookieKnown (filterPositions rows)))))

theorem markActive_position (r : DRow) :
    (markActive r).position = r.position := by
  simp only [markActive]
  split_ifs <;> rfl

theorem markActive_fantasy_points (r : DRow) :
    (markActive r).fantasy_points = r.fantasy_points := by
  simp only [markActive]
  split_ifs <;> rfl

theorem markActive_fantasy_points_ppr (r : DRow) :
    (markActive r).fantasy_points_ppr = r.fantasy_points_ppr := by
  simp only [markActive]
  split_ifs <;> rfl

theorem markActive_status (r : DRow) :
    (markActive r).status =
      if r.fantasy_points > 0 ∨ r.fantasy_points_ppr > 0 then strActive
      else r.status := by
  simp only [markActive]
  by_cases h1 : r.fantasy_points > 0 <;>
    by_cases h2 : r.fantasy_points_ppr > 0 <;>
      simp [h1, h2]

/-- C3 as amended: every row surviving the reconciler filters has one of
the four allowed positions and comes from a regular-season game, and its
source row has positive standard fantasy points, or positive PPR fantasy
points, or a pre-existing `status` column equal to Active — the code
keeps a non-scoring row whenever the extract already carried status
Active. -/
theorem reconcilerFilters_spec (rows : List DRow) (snaps : List SnapRow) :
    ∀ ρ ∈ reconcilerFilters rows snaps,
      ρ.d.position ∈ allowedPositions ∧
      ρ.game_type = strREG ∧
      ∃ r0 ∈ rows, ρ.d.fantasy_points = r0.fantasy_points ∧
        ρ.d.fantasy_points_ppr = r0.fantasy_points_ppr ∧
        (r0.fantasy_points > 0 ∨ r0.fantasy_points_ppr > 0 ∨
          r0.status = strActive) := by
  intro ρ hρ
  unfold reconcilerFilters at hρ
  rcases List.mem_filter.mp hρ with ⟨hjoin, hreg⟩
  have hgame : ρ.game_type = strREG := of_decide_eq_true hreg
  rcases List.mem_flatMap.mp hjoin with ⟨l, hl, hmap⟩
  rcases List.mem_map.mp hmap with ⟨s, _, rfl⟩
  rcases List.mem_filter.mp hl with ⟨hl1, hkeep⟩
  rcases List.mem_map.mp hl1 with ⟨r1, hr1, hmark⟩
  rcases List.mem_filter.mp hr1 with ⟨hr2, _⟩
  rcases List.mem_filter.mp hr2 with ⟨hr0, hposb⟩
  have hpos : r1.position ∈ allowedPositions := of_decide_eq_true hposb
  have hdl : (⟨l, s.game_type⟩ : JRow).d = l := rfl
  refine ⟨?_, hgame, r1, hr0, ?_, ?_, ?_⟩
  · rw [hdl, ← hmark, markActive_position]
    exact hpos
  · rw [hdl, ← hmark, markActive_fantasy_points]
  · rw [hdl, ← hmark, markActive_fantasy_points_ppr]
  · have hkeep2 : 0 < l.fantasy_points ∨ l.status = strActive := by
      have := hkeep
      simpa using this
    have hfp : l.fantasy_points = r1.fantasy_points := by
      rw [← hmark, markActive_fantasy_points]
    have hst : l.status =
        if r1.fantasy_points > 0 ∨ r1.fantasy_points_ppr > 0 then strActive
        else r1.status := by
      rw [← hmark, markActive_status]
    rcases hkeep2 with hgt | hla
    · exact Or.inl (by rw [← hfp]; exact hgt)
    · by_cases hc : r1.fantasy_points > 0 ∨ r1.fantasy_points_ppr > 0
      · rcases hc with h | h
        · exact Or.inl h
        · exact Or.inr (Or.inl h)
      · rw [hst, if_neg hc] at hla
        exact Or.inr (Or.inr hla)

/-- A row with zero fantasy points whose roster status is already
Active. -/
def dRowInactive : DRow :=
  { position := strRB, rookie_year := some 2019, fantasy_points := 0,
    fantasy_points_ppr := 0, status := strActive, pfr_id := ['x'],
    season := 2020, week := 1 }

/-- A matching regular-season snap row. -/
def snapRowReg : SnapRow :=
  { pfr_player_id := ['x'], season := 2020, week := 1,
    position := strRB, game_type := strREG }

/-- Counterexample for C3: a regular-season RB row with zero standard and
zero PPR fantasy points survives all the filters, because the roster
extract already carried `status` Active — the activity test of the claim
(positive standard or PPR points) fails on it. -/
theorem reconcilerFilters_activity_counterexample :
    ∃ ρ ∈ reconcilerFilters [dRowInactive] [snapRowReg],
      ρ.d.fantasy_points ≤ 0 ∧ ρ.d.fantasy_points_ppr ≤ 0 := by
  decide

/-- A row with positive fantasy points and a non-Active roster status. -/
def dRowScoring : DRow :=
  { position := strRB, rookie_year := some 2019, fantasy_points := 10,
    fantasy_points_ppr := 12, status := ['A', 'C', 'T'], pfr_id := ['x'],
    season := 2020, week := 1 }

/-- The joined row the pipeline produces for `dRowScoring`. -/
def jRowScoring : JRow := ⟨markActive dRowScoring, strREG⟩

/-- Witness for the amended C3 on a one-row input that scores points. -/
theorem reconcilerFilters_spec_witness :
    jRowScoring ∈ reconcilerFilters [dRowScoring] [snapRowReg] ∧
    (jRowScoring.d.position ∈ allowedPositions ∧
      jRowScoring.game_type = strREG ∧
      ∃ r0 ∈ [dRowScoring],
        jRowScoring.d.fantasy_points = r0.fantasy_points ∧
        jRowScoring.d.fantasy_points_ppr = r0.fantasy_points_ppr ∧
        (r0.fantasy_points > 0 ∨ r0.fantasy_points_ppr > 0 ∨
          r0.status = strActive)) := by
  have hm : jRowScoring ∈ reconcilerFilters [dRowScoring] [snapRowReg] := by
    decide
  exact ⟨hm, reconcilerFilters_spec [dRowScoring] [snapRowReg] _ hm⟩

/-! ## Merge collision policy: suffixes ("", "_DROP") then a regex filter
(source lines 139-146 and 194-201) -/

/-- The suffix attached to colliding right-hand columns. -/
def dropTag : List Char := ['_', 'D', 'R', 'O', 'P']

/-- Whether a column name contains the drop tag, as tested by the regex
filter of the source. -/
def containsDrop : List Char → Bool
  | [] => false
  | c :: cs => dropTag.isPrefixOf (c :: cs) || containsDrop cs

/-- A data frame: its column names, and its rows as maps from column
name to value. -/
structure Frame (α : Type) where
  cols : List (List Char)
  rows : List (List Char → α)

/-- The right-hand column names after the merge: the key column merges
away, and a right column whose name also occurs on the left is renamed
with the drop tag. -/
def suffixRightCols (lcols rcols : List (List Char)) (k : List Char) :
    List (List Char) :=
  (rcols.filter fun c => decide (c ≠ k)).map
    fun c => if c ∈ lcols then c ++ dropTag else c

/-- Value lookup in a merged row: a left column reads the left row, a
tagged column reads the renamed right column, anything else reads the
right row. -/
def combineRow {α : Type} (lcols : List (List Char)) (l r : List Char → α) :
    List Char → α :=
  fun c =>
    if c ∈ lcols then l c
    else if dropTag.isSuffixOf c then r (c.take (c.length - 5))
    else r c

/-- Embedding of `pd.merge(left, right, on=k, how="inner",
suffixes=("", "_DROP"))`. -/
def mergeSuffix {α : Type} [DecidableEq α] (left right : Frame α)
    (k : List Char) : Frame α :=
  { cols := left.cols ++ suffixRightCols left.cols right.cols k,
    rows := left.rows.flatMap fun l =>
      (right.rows.filter fun r => decide (r k = l k)).map
        fun r => combineRow left.cols l r }

/-- Embedding of `.filter(regex=...)` with the negative-lookahead
pattern of the source: keep the columns whose name does not contain the
drop tag. -/
def filterNoDrop {α : Type} (f : Frame α) : Frame α :=
  { cols := f.cols.filter fun c => !containsDrop c, rows := f.rows }

/-- The merge-then-filter idiom of source lines 139-146 and 194-201. -/
def mergeDropRight {α : Type} [DecidableEq α] (left right : Frame α)
    (k : List Char) : Frame α :=
  filterNoDrop (mergeSuffix left right k)

theorem containsDrop_append_dropTag (c : List Char) :
    containsDrop (c ++ dropTag) = true := by
  induction c with
  | nil => decide
  | cons a cs ih =>
    show containsDrop (a :: (cs ++ dropTag)) = true
    simp [containsDrop, ih]

theorem length_filter_eq_one_of_nodup {α : Type} [DecidableEq α]
    {l : List α} {c : α} (hn : l.Nodup) (hc : c ∈ l) :
    (l.filter fun x => decide (x = c)).length = 1 := by
  induction l with
  | nil => cases hc
  | cons a t ih =>
    rcases List.nodup_cons.mp hn with ⟨hat, hnt⟩
    rcases List.mem_cons.mp hc with rfl | hct
    · have hnil : t.filter (fun x => decide (x = c)) = [] := by
        rw [List.filter_eq_nil_iff]
        intro b hb
        simp only [decide_eq_true_eq]
        intro hbc
        exact hat (hbc ▸ hb)
      simp [List.filter_cons, hnil]
    · have hac : a ≠ c := fun h => hat (h ▸ hct)
      simp only [List.filter_cons, decide_eq_true_eq]
      rw [if_neg hac]
      exact ih hnt hct

/-- C4: in the suffix-then-filter inner merge, a non-key column name
shared by both frames appears exactly once in the output, the tagged
right-hand copy is gone, and every output row reads that column from its
generating left row. -/
theorem mergeDropRight_collision {α : Type} [DecidableEq α]
    (left right : Frame α) (k c : List Char)
    (hnodup : left.cols.Nodup) (hcl : c ∈ left.cols) (hcr : c ∈ right.cols)
    (hck : c ≠ k) (hcd : containsDrop c = false) :
    ((mergeDropRight left right k).cols.filter
      fun x => decide (x = c)).length = 1 ∧
    (c ++ dropTag) ∉ (mergeDropRight left right k).cols ∧
    ∀ ρ ∈ (mergeDropRight left right k).rows,
      ∃ l ∈ left.rows, ρ c = l c := by
  refine ⟨?_, ?_, ?_⟩
  · show (((left.cols ++ suffixRightCols left.cols right.cols k).filter
      fun x => !containsDrop x).filter fun x => decide (x = c)).length = 1
    rw [List.filter_append, List.filter_append, List.length_append]
    have h1 : (((left.cols.filter fun x => !containsDrop x).filter
        fun x => decide (x = c))).length = 1 := by
      refine length_filter_eq_one_of_nodup (hnodup.filter _) ?_
      exact List.mem_filter.mpr ⟨hcl, by simp [hcd]⟩
    have h2 : (((suffixRightCols left.cols right.cols k).filter
        fun x => !containsDrop x).filter fun x => decide (x = c)) = [] := by
      rw [List.filter_eq_nil_iff]
      intro b hb
      simp only [decide_eq_true_eq]
      intro hbc
      subst hbc
      rcases List.mem_filter.mp hb with ⟨hmem2, _⟩
      rcases List.mem_map.mp hmem2 with ⟨c2, _, hc2⟩
      by_cases hin : c2 ∈ left.cols
      · rw [if_pos hin] at hc2
        rw [← hc2] at hcd
        rw [containsDrop_append_dropTag c2] at hcd
        cases hcd
      · rw [if_neg hin] at hc2
        rw [hc2] at hin
        exact hin hcl
    rw [h1, h2]
    simp
  · intro hmem
    rcases List.mem_filter.mp hmem with ⟨_, hkeep⟩
    rw [containsDrop_append_dropTag c] at hkeep
    cases hkeep
  · intro ρ hρ
    rcases List.mem_flatMap.mp hρ with ⟨l, hl, hmap⟩
    rcases List.mem_map.mp hmap with ⟨r, _, rfl⟩
    exact ⟨l, hl, by simp [combineRow, hcl]⟩

/-- A left frame with a key column and a value column. -/
def frameL : Frame Int := ⟨[['k'], ['v']], [fun _ => 1]⟩

/-- A right frame sharing both column names. -/
def frameR : Frame Int := ⟨[['k'], ['v']], [fun _ => 2]⟩

/-- Witness for C4 on concrete two-column frames sharing the non-key
column name v. -/
theorem mergeDropRight_collision_witness :
    ((mergeDropRight frameL frameR ['k']).cols.filter
      fun x => decide (x = ['v'])).length = 1 ∧
    (['v'] ++ dropTag) ∉ (mergeDropRight frameL frameR ['k']).cols ∧
    ∀ ρ ∈ (mergeDropRight frameL frameR ['k']).rows,
      ∃ l ∈ frameL.rows, ρ ['v'] = l ['v'] :=
  mergeDropRight_collision frameL frameR ['k'] ['v']
    (by decide) (by decide) (by decide) (by decide) (by decide)

/-! ## Output path handling (source lines 123-129 and 385-388) -/

/-- Remove trailing slashes. -/
def dropTrailingSlashes (h : List Char) : List Char :=
  (h.reverse.dropWhile fun c => decide (c = '/')).reverse

/-- Model of `os.path.split` for POSIX paths: cut after the last slash,
then strip trailing slashes from the head unless it is empty or all
slashes. -/
def osPathSplit (p : List Char) : List Char × List Char :=
  let i := if '/' ∈ p then p.length - p.reverse.indexOf '/' else 0
  let head := p.take i
  let tail := p.drop i
  (if head.isEmpty || head.all fun c => decide (c = '/') then head
   else dropTrailingSlashes head, tail)

/-- Model of `os.path.join` on two POSIX path segments. -/
def osPathJoin (a b : List Char) : List Char :=
  if b.head? = some '/' then b
  else if a.isEmpty || a.getLast? = some '/' then a ++ b
  else a ++ '/' :: b

/-- The string data.csv. -/
def strDataCsv : List Char := ['d', 'a', 't', 'a', '.', 'c', 's', 'v']

/-- Embedding of source lines 123-129.  The first component is the local
variable `filepath`: in the branch where `data_filepath` is an existing
directory the source never assigns it, modelled as `none`. -/
def checkFilepaths (isDir : List Char → Bool) (data_filepath : List Char) :
    Option (List Char) × List Char :=
  if isDir data_filepath then (none, strDataCsv)
  else ((osPathSplit data_filepath).1, (osPathSplit data_filepath).2).map
    some id

/-- The directory handed to `os.makedirs` by lines 128-129, when any. -/
def makedirsCalledOn (isDir : List Char → Bool)
    (data_filepath : List Char) : Option (List Char) :=
  if isDir data_filepath then none
  else if isDir (osPathSplit data_filepath).1 then none
  else some (osPathSplit data_filepath).1

/-- Embedding of the write target of line 386,
`os.path.join(filepath, filename)`: reading the unassigned local
`filepath` raises, modelled as `none`. -/
def outputPath (isDir : List Char → Bool) (data_filepath : List Char) :
    Option (List Char) :=
  match checkFilepaths isDir data_filepath with
  | (none, _) => none
  | (some fp, fn) => some (osPathJoin fp fn)

/-- C8 evaluated on the failing input and on a regular input: when the
caller passes an existing directory (here the directory data), the run
reaches line 386 with the local `filepath` never assigned and raises
UnboundLocalError instead of writing data.csv inside the directory; on a
non-directory path such as data/data.csv the file is written to the path
itself and the absent parent directory data is first created. -/
theorem outputPath_directory_crash :
    outputPath (fun q => decide (q = ['d', 'a', 't', 'a']))
      ['d', 'a', 't', 'a'] = none ∧
    outputPath (fun _ => false)
      ['d', 'a', 't', 'a', '/', 'd', 'a', 't', 'a', '.', 'c', 's', 'v'] =
      some ['d', 'a', 't', 'a', '/', 'd', 'a', 't', 'a', '.', 'c', 's', 'v'] ∧
    makedirsCalledOn (fun _ => false)
      ['d', 'a', 't', 'a', '/', 'd', 'a', 't', 'a', '.', 'c', 's', 'v'] =
      some ['d', 'a', 't', 'a'] := by
  refine ⟨?_, ?_, ?_⟩ <;> decide
